import Mathlib

/-!
Verification development for the client-side expense dashboard
(`src/static/js/expenses.js`): the in-cell formula evaluator
(`calculateFormula` and the cell blur handler), and the derived-expense
aggregation pipeline (`processExpenseData`, `calculateTopExpenseUnits`,
the P&L totals of `updatePnLStatement`, `calculatePercentChange`,
the ROI rows of `updateROIAnalysis`, and `calculateNetEarn`).

JavaScript numbers are modelled as exact rationals extended with the
three non-finite values `NaN`, `Infinity`, `-Infinity` (type `JsNum`);
IEEE-754 rounding of individual operations, the negative zero, and
exponent/`Infinity` textual forms accepted by `parseFloat` are outside
the model.  In the aggregation layer, where only `parseFloat` results
flow (never `Infinity`), numbers are `Option ℚ` with `none` playing the
role of `NaN` and propagating through arithmetic exactly as `NaN` does.
-/

/-- JavaScript whitespace as matched by `\s` and skipped by `parseFloat`
and `String.prototype.trim` (approximated by Unicode whitespace). -/
def isJsWhitespace (c : Char) : Bool :=
  c.isWhitespace

/-- Numeric value of a list of decimal digit characters (most significant
first); `digitsVal [] = 0`. -/
def digitsVal (ds : List Char) : ℕ :=
  ds.foldl (fun acc c => 10 * acc + (c.toNat - 48)) 0

/-- Fractional value contributed by the digits after the decimal point:
`fracVal ds = digitsVal ds / 10 ^ ds.length`. -/
def fracVal (ds : List Char) : ℚ :=
  (digitsVal ds : ℚ) / (10 : ℚ) ^ ds.length

/-- Core of the `parseFloat` model, after leading whitespace and an
optional sign have been consumed: longest prefix of the form
`digits [ "." digits ]` with at least one digit overall; `none` when no
digit is found (JavaScript `NaN`). -/
def parseFloatDigits (cs : List Char) : Option ℚ :=
  let intPart := cs.takeWhile Char.isDigit
  let rest := cs.drop intPart.length
  let fracPart := if rest.headI = '.' then rest.tail.takeWhile Char.isDigit else []
  if intPart = [] ∧ fracPart = [] then none
  else some ((digitsVal intPart : ℚ) + fracVal fracPart)

/-- Model of JavaScript `parseFloat` on the string forms occurring in
this code base: skip leading whitespace, read an optional sign, then the
longest numeric prefix `digits [ "." digits ]`; everything after that
prefix is ignored; `none` models `NaN` (no digit found).  The textual
forms `Infinity` and exponent notation are not modelled. -/
def jsParseFloat (s : String) : Option ℚ :=
  let cs := s.data.dropWhile isJsWhitespace
  if cs.headI = '-' then (parseFloatDigits cs.tail).map (fun q => -q)
  else if cs.headI = '+' then parseFloatDigits cs.tail
  else parseFloatDigits cs

/-- `s.replace(/,/g, '')`: remove every comma. -/
def stripCommas (s : String) : String :=
  ⟨s.data.filter (fun c => c ≠ ',')⟩

/-- `Math.round`: round to the nearest integer, ties toward `+∞`. -/
def jsRound (q : ℚ) : ℤ :=
  ⌊q + 1 / 2⌋

/-- Decimal rendering of a nonnegative integer below 100, padded to two
digits, as produced by `toFixed(2)` for the fractional part. -/
def pad2 (n : ℤ) : String :=
  if n < 10 then "0" ++ toString n else toString n

/-- `Number.prototype.toFixed(2)` on a finite value: extract the sign,
round the magnitude times 100 to the nearest integer (ties away from
zero, per the ECMAScript algorithm choosing the larger candidate), and
print with exactly two fractional digits.  Values of magnitude `≥ 10^21`
(which print in exponent form) are outside the model. -/
def toFixed2 (q : ℚ) : String :=
  let s := if q < 0 then "-" else ""
  let n : ℤ := ⌊|q| * 100 + 1 / 2⌋
  s ++ toString (n / 100) ++ "." ++ pad2 (n % 100)

/-- A JavaScript number: a finite rational or one of the non-finite
values.  The negative zero is not distinguished from zero. -/
inductive JsNum where
  | num (q : ℚ)
  | posInf
  | negInf
  | nan
deriving DecidableEq

namespace JsNum

/-- JavaScript unary minus. -/
def neg : JsNum → JsNum
  | num q => num (-q)
  | posInf => negInf
  | negInf => posInf
  | nan => nan

/-- JavaScript addition on extended numbers. -/
def add : JsNum → JsNum → JsNum
  | nan, _ => nan
  | _, nan => nan
  | posInf, negInf => nan
  | negInf, posInf => nan
  | posInf, _ => posInf
  | _, posInf => posInf
  | negInf, _ => negInf
  | _, negInf => negInf
  | num a, num b => num (a + b)

/-- JavaScript subtraction: `a - b = a + (-b)`. -/
def sub (a b : JsNum) : JsNum :=
  add a (neg b)

/-- JavaScript multiplication; `Infinity * 0 = NaN`. -/
def mul : JsNum → JsNum → JsNum
  | nan, _ => nan
  | _, nan => nan
  | posInf, posInf => posInf
  | posInf, negInf => negInf
  | negInf, posInf => negInf
  | negInf, negInf => posInf
  | posInf, num b => if b > 0 then posInf else if b < 0 then negInf else nan
  | num a, posInf => if a > 0 then posInf else if a < 0 then negInf else nan
  | negInf, num b => if b > 0 then negInf else if b < 0 then posInf else nan
  | num a, negInf => if a > 0 then negInf else if a < 0 then posInf else nan
  | num a, num b => num (a * b)

/-- JavaScript division; `x / 0` is `±Infinity` for `x ≠ 0` and `NaN`
for `x = 0` (the negative zero divisor is not modelled). -/
def div : JsNum → JsNum → JsNum
  | nan, _ => nan
  | _, nan => nan
  | posInf, posInf => nan
  | posInf, negInf => nan
  | negInf, posInf => nan
  | negInf, negInf => nan
  | posInf, num b => if b ≥ 0 then posInf else negInf
  | negInf, num b => if b ≥ 0 then negInf else posInf
  | num _, posInf => num 0
  | num _, negInf => num 0
  | num a, num b =>
    if b = 0 then
      if a > 0 then posInf else if a < 0 then negInf else nan
    else num (a / b)

end JsNum

/-- `parseFloat(result).toFixed(2)` applied to the value computed by the
evaluator: `parseFloat` converts a number argument to a string and back,
which is the identity on the values arising here; `toFixed(2)` prints
`NaN` and the infinities by name. -/
def jsToFixed2 : JsNum → String
  | JsNum.nan => "NaN"
  | JsNum.posInf => "Infinity"
  | JsNum.negInf => "-Infinity"
  | JsNum.num q => toFixed2 q

/-! ## The formula evaluator (`calculateFormula`, expenses.js lines 526-553) -/

/-- Collapse every run of two or more consecutive occurrences of `c`
into a single occurrence, as the global regex replacements
`/\+{2,}/ → '+'` (and the analogues for `-`, `*`, `/`) do. -/
def collapseRun (c : Char) : List Char → List Char
  | [] => []
  | [a] => [a]
  | a :: b :: rest =>
    if a = c ∧ b = c then collapseRun c (b :: rest)
    else a :: collapseRun c (b :: rest)

/-- Global replacement of the two-character pattern `a b` by the single
character `r`, scanning left to right without re-examining replacement
text, as `String.prototype.replace` with a global regex does. -/
def replacePair (a b r : Char) : List Char → List Char
  | [] => []
  | [c] => [c]
  | c :: d :: rest =>
    if c = a ∧ d = b then r :: replacePair a b r rest
    else c :: replacePair a b r (d :: rest)

/-- The normalization pipeline of `calculateFormula`: collapse operator
runs (`+` `-` `*` `/`, in that order), then rewrite `+-` → `-`,
`-+` → `-`, `--` → `+`, each globally exactly once. -/
def normalizeExpr (s : String) : String :=
  let step1 :=
    collapseRun '/' (collapseRun '*' (collapseRun '-' (collapseRun '+' s.data)))
  let step2 :=
    replacePair '-' '-' '+' (replacePair '-' '+' '-' (replacePair '+' '-' '-' step1))
  ⟨step2⟩

/-- The character whitelist of `calculateFormula`:
`/[^0-9\+\-\*\/\.\(\)\s]/` must not match. -/
def allowedChar (c : Char) : Bool :=
  c.isDigit || c = '+' || c = '-' || c = '*' || c = '/' ||
    c = '.' || c = '(' || c = ')' || isJsWhitespace c

/-- Tokens of the normalized arithmetic expression. -/
inductive Tok where
  | tnum (q : ℚ)
  | tplus
  | tminus
  | tstar
  | tslash
  | tlp
  | trp
deriving DecidableEq

/-- Lex one numeric literal starting at `cs` (which starts with a digit
or a dot): longest prefix `digits [ "." digits ]`.  Returns the value
and the remaining characters, or `none` for the strict-mode syntax
errors: no digit at all (a lone dot), or a legacy-octal-like integer
part (`0` followed by more digits), which `'use strict'` rejects. -/
def lexNumber (cs : List Char) : Option (ℚ × List Char) :=
  let intPart := cs.takeWhile Char.isDigit
  let rest := cs.drop intPart.length
  match rest with
  | '.' :: rs =>
    let fracPart := rs.takeWhile Char.isDigit
    if intPart = [] ∧ fracPart = [] then none
    else if 2 ≤ intPart.length ∧ intPart.headI = '0' then none
    else some ((digitsVal intPart : ℚ) + fracVal fracPart, rs.drop fracPart.length)
  | _ =>
    if intPart = [] then none
    else if 2 ≤ intPart.length ∧ intPart.headI = '0' then none
    else some ((digitsVal intPart : ℚ), rest)

/-- Fuel-indexed lexer for the validated character set.  Two adjacent
`-` (or `+`) characters lex as the decrement (increment) operator in
JavaScript and make the wrapped `return (...)` a syntax error, so they
yield `none`; the normalization pipeline never emits them, but the
lexer stays faithful to `Function` regardless. -/
def lexGo : ℕ → List Char → Option (List Tok)
  | 0, _ => none
  | _ + 1, [] => some []
  | fuel + 1, c :: cs =>
    if isJsWhitespace c then lexGo fuel cs
    else if c = '+' then
      match cs with
      | '+' :: _ => none
      | _ => (lexGo fuel cs).map (fun ts => Tok.tplus :: ts)
    else if c = '-' then
      match cs with
      | '-' :: _ => none
      | _ => (lexGo fuel cs).map (fun ts => Tok.tminus :: ts)
    else if c = '*' then (lexGo fuel cs).map (fun ts => Tok.tstar :: ts)
    else if c = '/' then (lexGo fuel cs).map (fun ts => Tok.tslash :: ts)
    else if c = '(' then (lexGo fuel cs).map (fun ts => Tok.tlp :: ts)
    else if c = ')' then (lexGo fuel cs).map (fun ts => Tok.trp :: ts)
    else if c.isDigit ∨ c = '.' then
      match lexNumber (c :: cs) with
      | none => none
      | some (q, rest) => (lexGo fuel rest).map (fun ts => Tok.tnum q :: ts)
    else none

/-- Lex a full character list (fuel bounded by the length). -/
def lexExpr (cs : List Char) : Option (List Tok) :=
  lexGo (cs.length + 1) cs

mutual

/-- `Expr := Term (('+'|'-') Term)*` with left-to-right evaluation. -/
def parseE : ℕ → List Tok → Option (JsNum × List Tok)
  | 0, _ => none
  | fuel + 1, ts =>
    match parseT fuel ts with
    | none => none
    | some (v, rest) => parseEloop fuel v rest

/-- Additive-operator loop of `parseE`. -/
def parseEloop : ℕ → JsNum → List Tok → Option (JsNum × List Tok)
  | 0, _, _ => none
  | fuel + 1, v, Tok.tplus :: ts =>
    match parseT fuel ts with
    | none => none
    | some (w, rest) => parseEloop fuel (JsNum.add v w) rest
  | fuel + 1, v, Tok.tminus :: ts =>
    match parseT fuel ts with
    | none => none
    | some (w, rest) => parseEloop fuel (JsNum.sub v w) rest
  | _ + 1, v, ts => some (v, ts)

/-- `Term := Unary (('*'|'/') Unary)*` with left-to-right evaluation. -/
def parseT : ℕ → List Tok → Option (JsNum × List Tok)
  | 0, _ => none
  | fuel + 1, ts =>
    match parseU fuel ts with
    | none => none
    | some (v, rest) => parseTloop fuel v rest

/-- Multiplicative-operator loop of `parseT`. -/
def parseTloop : ℕ → JsNum → List Tok → Option (JsNum × List Tok)
  | 0, _, _ => none
  | fuel + 1, v, Tok.tstar :: ts =>
    match parseU fuel ts with
    | none => none
    | some (w, rest) => parseTloop fuel (JsNum.mul v w) rest
  | fuel + 1, v, Tok.tslash :: ts =>
    match parseU fuel ts with
    | none => none
    | some (w, rest) => parseTloop fuel (JsNum.div v w) rest
  | _ + 1, v, ts => some (v, ts)

/-- `Unary := ('+'|'-') Unary | Primary` (unary plus is the identity on
numbers produced by this grammar). -/
def parseU : ℕ → List Tok → Option (JsNum × List Tok)
  | 0, _ => none
  | fuel + 1, Tok.tplus :: ts => parseU fuel ts
  | fuel + 1, Tok.tminus :: ts =>
    match parseU fuel ts with
    | none => none
    | some (v, rest) => some (JsNum.neg v, rest)
  | fuel + 1, ts => parseP fuel ts

/-- `Primary := number | '(' Expr ')'`. -/
def parseP : ℕ → List Tok → Option (JsNum × List Tok)
  | 0, _ => none
  | _ + 1, Tok.tnum q :: ts => some (JsNum.num q, ts)
  | fuel + 1, Tok.tlp :: ts =>
    match parseE fuel ts with
    | none => none
    | some (v, Tok.trp :: rest) => some (v, rest)
    | some (_, _) => none
  | _ + 1, _ => none

end

/-- Evaluate a normalized, character-validated expression the way
`Function("'use strict'; return (" + e + ")")()` does: lex, parse with
standard precedence and parenthesis grouping, require the whole token
list to be consumed.  `none` models every thrown error (syntax error,
or the runtime type error of an adjacent-primary call form). -/
def evalExpr (s : String) : Option JsNum :=
  match lexExpr s.data with
  | none => none
  | some ts =>
    match parseE (4 * ts.length + 8) ts with
    | some (v, []) => some v
    | _ => none

/-- `calculateFormula` (expenses.js 526-553): empty input returns the
empty string; otherwise normalize, reject any character outside the
whitelist, evaluate, and format with `parseFloat(result).toFixed(2)`.
`Except.error ()` models a thrown exception. -/
def calculateFormula (expression : String) : Except Unit String :=
  if expression = "" then Except.ok ""
  else
    let cleanExpression := normalizeExpr expression
    if cleanExpression.data.any (fun c => ¬ allowedChar c) then Except.error ()
    else
      match evalExpr cleanExpression with
      | none => Except.error ()
      | some v => Except.ok (jsToFixed2 v)

/-! ## The cell blur handler (expenses.js lines 233-299) -/

/-- The slice of `currentExpenses[unitId]` relevant to one column: the
stored cell value and the stored `column_formula` text. -/
structure MemCell where
  value : Option String
  formula : Option String
deriving DecidableEq

/-- Result of one blur event on a cell: the text left displayed in the
input, the element's `dataset.formula`, the in-memory record slice, and
whether the transient `calculation-error` indicator was raised (it is
removed automatically after 2000 ms and is non-fatal). -/
structure BlurResult where
  displayed : String
  datasetFormula : Option String
  mem : MemCell
  errorFlagged : Bool
deriving DecidableEq

/-- The `value.match(/[-+*\/()]/)` test selecting the implicit-formula
branch. -/
def containsOperator (s : String) : Bool :=
  s.data.any (fun c => c = '-' || c = '+' || c = '*' || c = '/' || c = '(' || c = ')')

/-- The blur handler (expenses.js 233-299) as a state transition.
`priorFormula` is the element's `dataset.formula` before the event,
`mem` the record slice, `t` the committed text (`e.target.value`).
Faithful ordering: in the `=` branch `dataset.formula` is assigned
before evaluation, in the implicit branch it is deleted before
evaluation, so both survive a failed evaluation; the input's text is
only reassigned on success. -/
def blurHandler (priorFormula : Option String) (mem : MemCell) (t : String) : BlurResult :=
  let value := t.trim
  if value ≠ "" ∧ value.startsWith "=" then
    match calculateFormula (stripCommas (value.drop 1)) with
    | Except.ok result =>
      ⟨result, some value, ⟨some result, some value⟩, false⟩
    | Except.error _ =>
      ⟨t, some value, mem, true⟩
  else if value ≠ "" ∧ containsOperator value then
    match calculateFormula (stripCommas value) with
    | Except.ok result =>
      ⟨result, none, ⟨some result, none⟩, false⟩
    | Except.error _ =>
      ⟨t, none, mem, true⟩
  else
    ⟨t, priorFormula, mem, false⟩

/-! ## Data model of the aggregation layer -/

/-- A unit as delivered by `GET expenses`: identifier and display
number (the building grouping plays no role in the claims). -/
structure UnitInfo where
  id : ℕ
  unit_number : String
deriving DecidableEq

/-- One per-unit expense record: the twelve fixed categories, each
holding the stored cell-value string or absent.  `none` models a
missing field (JavaScript `undefined`). -/
structure ExpenseRecord where
  sales : Option String := none
  rental : Option String := none
  electricity : Option String := none
  water : Option String := none
  sewage : Option String := none
  internet : Option String := none
  cleaner : Option String := none
  laundry : Option String := none
  supplies : Option String := none
  repair : Option String := none
  replace : Option String := none
  other : Option String := none
deriving DecidableEq

/-- `expenses[unit.id] || {}`: look the unit up in the expenses map,
defaulting to the empty record. -/
def lookupExpense (expenses : List (ℕ × ExpenseRecord)) (i : ℕ) : ExpenseRecord :=
  (((expenses.find? (fun p => p.1 = i)).map Prod.snd).getD {})

/-- JavaScript truthiness of a possibly-absent string field: `undefined`
and the empty string are falsy, every other string is truthy. -/
def jsTruthy : Option String → Bool
  | none => false
  | some s => s ≠ ""

/-- `parseFloat(x || 0)`: a falsy field makes `parseFloat` see the
number `0` (hence yields `0`); otherwise the string is parsed and the
result may be `NaN` (`none`). -/
def parseField (v : Option String) : Option ℚ :=
  if jsTruthy v then jsParseFloat (v.getD "") else some 0

/-- Contribution of one field under the pattern
`if (x) total += parseFloat(x) || 0` of `processExpenseData`: skipped
when falsy, `NaN` coerced to `0` by `|| 0`. -/
def parseGuarded (v : Option String) : ℚ :=
  if jsTruthy v then (jsParseFloat (v.getD "")).getD 0 else 0

/-- `NaN`-propagating addition on `Option ℚ`. -/
def oadd : Option ℚ → Option ℚ → Option ℚ
  | some a, some b => some (a + b)
  | _, _ => none

/-- `NaN`-propagating subtraction on `Option ℚ`. -/
def osub : Option ℚ → Option ℚ → Option ℚ
  | some a, some b => some (a - b)
  | _, _ => none

/-- `NaN`-propagating multiplication on `Option ℚ`. -/
def omul : Option ℚ → Option ℚ → Option ℚ
  | some a, some b => some (a * b)
  | _, _ => none

/-- `NaN`-propagating division on `Option ℚ`.  Every division in the
aggregation layer is guarded by a strict-positivity test on the
divisor, so the `b = 0` case (which in JavaScript would produce an
infinity this type cannot express) is unreachable and mapped to
`none`. -/
def odiv : Option ℚ → Option ℚ → Option ℚ
  | some a, some b => if b = 0 then none else some (a / b)
  | _, _ => none

/-- JavaScript `x > 0` where `x` may be `NaN` (`NaN > 0` is false). -/
def ogt0 : Option ℚ → Bool
  | some q => q > 0
  | none => false

/-- JavaScript `x >= c` where `x` may be `NaN` (comparisons with `NaN`
are false). -/
def oge (v : Option ℚ) (c : ℚ) : Bool :=
  match v with
  | some q => c ≤ q
  | none => false

/-- The eleven non-sales expense categories, in the order of the
`categories` array of `processExpenseData`. -/
inductive Category where
  | rental
  | electricity
  | water
  | sewage
  | internet
  | cleaner
  | laundry
  | supplies
  | repair
  | replace
  | other
deriving DecidableEq

/-- The record field holding a category's cell value. -/
def Category.getField : Category → ExpenseRecord → Option String
  | Category.rental, r => r.rental
  | Category.electricity, r => r.electricity
  | Category.water, r => r.water
  | Category.sewage, r => r.sewage
  | Category.internet, r => r.internet
  | Category.cleaner, r => r.cleaner
  | Category.laundry, r => r.laundry
  | Category.supplies, r => r.supplies
  | Category.repair, r => r.repair
  | Category.replace, r => r.replace
  | Category.other, r => r.other

/-- The display name used in the `categories` array. -/
def Category.displayName : Category → String
  | Category.rental => "Rental"
  | Category.electricity => "Electricity"
  | Category.water => "Water"
  | Category.sewage => "Sewage"
  | Category.internet => "Internet"
  | Category.cleaner => "Cleaner"
  | Category.laundry => "Laundry"
  | Category.supplies => "Supplies"
  | Category.repair => "Repair"
  | Category.replace => "Replace"
  | Category.other => "Other"

/-- The initialization order of the `categories` array. -/
def categoryOrder : List Category :=
  [Category.rental, Category.electricity, Category.water, Category.sewage,
   Category.internet, Category.cleaner, Category.laundry, Category.supplies,
   Category.repair, Category.replace, Category.other]

/-- `units.filter(unit => unit.id == unitId)` when a single unit is
selected, the full list for `'all'` (`none`). -/
def filterUnitsBy (units : List UnitInfo) (unitId : Option ℕ) : List UnitInfo :=
  match unitId with
  | none => units
  | some i => units.filter (fun u => u.id = i)

/-! ## `processExpenseData` (expenses.js lines 1028-1101) -/

/-- One entry of the category breakdown: display name, summed amount,
and whole-percent share. -/
structure CatEntry where
  name : String
  amount : ℚ
  percentage : ℤ
deriving DecidableEq

/-- The value returned by `processExpenseData`; `topExpense` is carried
as its name and percentage (the sentinel `{name: 'None', percentage: 0}`
has no amount field). -/
structure AnalysisData where
  total : ℚ
  categories : List CatEntry
  topExpenseName : String
  topExpensePercentage : ℤ
  avgPerUnit : ℤ
  unitCount : ℕ
deriving DecidableEq

/-- Sum of one category over the filtered units under the
`if (x) amount += parseFloat(x) || 0` pattern.  The source loops over
units and increments each category cell of a mutable array; since the
eleven cells are updated independently, the per-category sum in unit
order is the same value. -/
def catAmount (units : List UnitInfo) (expenses : List (ℕ × ExpenseRecord))
    (unitId : Option ℕ) (c : Category) : ℚ :=
  (filterUnitsBy units unitId).foldl
    (fun acc u => acc + parseGuarded (c.getField (lookupExpense expenses u.id))) 0

/-- The `nonZeroCategories` stage: every category paired with its sum,
in array order, filtered by `cat.amount > 0`. -/
def nonZeroCategories (units : List UnitInfo) (expenses : List (ℕ × ExpenseRecord))
    (unitId : Option ℕ) : List (Category × ℚ) :=
  (categoryOrder.map (fun c => (c, catAmount units expenses unitId c))).filter
    (fun p => p.2 > 0)

/-- The `total` stage: `nonZeroCategories.reduce((sum, category) => sum + category.amount, 0)`. -/
def nonZeroTotal (units : List UnitInfo) (expenses : List (ℕ × ExpenseRecord))
    (unitId : Option ℕ) : ℚ :=
  (nonZeroCategories units expenses unitId).foldl (fun acc p => acc + p.2) 0

/-- The percentage-attachment stage:
`category.percentage = Math.round(category.amount / total * 100)`. -/
def categoriesWithPct (units : List UnitInfo) (expenses : List (ℕ × ExpenseRecord))
    (unitId : Option ℕ) : List CatEntry :=
  (nonZeroCategories units expenses unitId).map
    (fun p => ⟨p.1.displayName, p.2,
      jsRound (p.2 / nonZeroTotal units expenses unitId * 100)⟩)

/-- The comparator `(a, b) => b.amount - a.amount` as a `≤`-style
relation (`cmp(a, b) <= 0` iff `b.amount <= a.amount`); total and
transitive, so the stable sort is fully characterized. -/
def catCmpLe (a b : CatEntry) : Bool :=
  b.amount ≤ a.amount

/-- The sort stage of `processExpenseData`: stable descending sort by
amount (`Array.prototype.sort` is stable). -/
def sortedCategories (units : List UnitInfo) (expenses : List (ℕ × ExpenseRecord))
    (unitId : Option ℕ) : List CatEntry :=
  (categoriesWithPct units expenses unitId).mergeSort catCmpLe

/-- `processExpenseData(apiData, unitId)`: sum each category over the
filtered units, keep the categories with `amount > 0`, total them,
attach `Math.round(amount / total * 100)` percentages, sort descending
by amount, and take the head as the top expense with the
`{name: 'None', percentage: 0}` sentinel for an empty list. -/
def processExpenseData (units : List UnitInfo) (expenses : List (ℕ × ExpenseRecord))
    (unitId : Option ℕ) : AnalysisData :=
  let total := nonZeroTotal units expenses unitId
  let sorted := sortedCategories units expenses unitId
  let topName := match sorted with | [] => "None" | e :: _ => e.name
  let topPct : ℤ := match sorted with | [] => 0 | e :: _ => e.percentage
  let unitCount := (filterUnitsBy units unitId).length
  let avgPerUnit : ℤ := if 0 < unitCount then jsRound (total / unitCount) else 0
  ⟨total, sorted, topName, topPct, avgPerUnit, unitCount⟩

/-! ## `calculateTopExpenseUnits` (expenses.js lines 1245-1282) -/

/-- One entry of the top-units ranking.  The total is `Option ℚ`
because `parseFloat(x || 0)` has no `|| 0` after it here: a present but
unparseable field makes the whole unit total `NaN`. -/
structure TopUnitEntry where
  id : ℕ
  unit_number : String
  total_expense : Option ℚ
deriving DecidableEq

/-- Per-unit total of the eleven non-sales categories, summed in source
order with `NaN` propagation. -/
def unitTotal (r : ExpenseRecord) : Option ℚ :=
  oadd (oadd (oadd (oadd (oadd (oadd (oadd (oadd (oadd (oadd
    (parseField r.rental) (parseField r.electricity)) (parseField r.water))
    (parseField r.sewage)) (parseField r.internet)) (parseField r.cleaner))
    (parseField r.laundry)) (parseField r.supplies)) (parseField r.repair))
    (parseField r.replace)) (parseField r.other)

/-- The pre-sort stage of `calculateTopExpenseUnits`: every unit with
its total, filtered by `unit.total_expense > 0` (which also discards
`NaN` totals, since `NaN > 0` is false). -/
def topUnitsFiltered (units : List UnitInfo)
    (expenses : List (ℕ × ExpenseRecord)) : List TopUnitEntry :=
  (units.map
    (fun u => ⟨u.id, u.unit_number, unitTotal (lookupExpense expenses u.id)⟩)).filter
    (fun e => ogt0 e.total_expense)

/-- The comparator `(a, b) => b.total_expense - a.total_expense` as a
`≤`-style relation.  It is only ever applied to entries that passed the
`> 0` filter, whose totals are all `some`; on those it says
`b.total_expense ≤ a.total_expense`.  The `getD 0` extension to absent
totals (never consulted) keeps the relation total and transitive. -/
def topCmpLe (a b : TopUnitEntry) : Bool :=
  b.total_expense.getD 0 ≤ a.total_expense.getD 0

/-- The sort stage: stable descending sort by total expense. -/
def topUnitsSorted (units : List UnitInfo)
    (expenses : List (ℕ × ExpenseRecord)) : List TopUnitEntry :=
  (topUnitsFiltered units expenses).mergeSort topCmpLe

/-- `calculateTopExpenseUnits(data)`: map every unit to its expense
total, drop the units whose total is not `> 0`, sort descending by
total (stable), and keep the first 10 (`slice(0, 10)`). -/
def calculateTopExpenseUnits (units : List UnitInfo)
    (expenses : List (ℕ × ExpenseRecord)) : List TopUnitEntry :=
  (topUnitsSorted units expenses).take 10

/-! ## P&L summary totals and changes (`updatePnLStatement`, expenses.js 1436-1519) -/

/-- Sum of one field over the filtered units with `parseFloat(x || 0)`
and `NaN` propagation, in unit order, as the `forEach` accumulators of
`updatePnLStatement` do. -/
def plFieldTotal (units : List UnitInfo) (expenses : List (ℕ × ExpenseRecord))
    (unitId : Option ℕ) (f : ExpenseRecord → Option String) : Option ℚ :=
  (filterUnitsBy units unitId).foldl
    (fun acc u => oadd acc (parseField (f (lookupExpense expenses u.id)))) (some 0)

/-- The three P&L summary totals: total revenue (sum of sales), total
expenses (sum of the eleven category totals), net income
(revenue − expenses). -/
def plTotals (units : List UnitInfo) (expenses : List (ℕ × ExpenseRecord))
    (unitId : Option ℕ) : Option ℚ × Option ℚ × Option ℚ :=
  let tot := plFieldTotal units expenses unitId
  let totalRevenue := tot (fun r => r.sales)
  let totalExpenses :=
    oadd (oadd (oadd (oadd (oadd (oadd (oadd (oadd (oadd (oadd
      (tot (fun r => r.rental)) (tot (fun r => r.electricity)))
      (tot (fun r => r.water))) (tot (fun r => r.sewage)))
      (tot (fun r => r.internet))) (tot (fun r => r.cleaner)))
      (tot (fun r => r.laundry))) (tot (fun r => r.supplies)))
      (tot (fun r => r.repair))) (tot (fun r => r.replace)))
      (tot (fun r => r.other))
  let netIncome := osub totalRevenue totalExpenses
  (totalRevenue, totalExpenses, netIncome)

/-- The inline percent-change computation of `updatePnLStatement`
(lines 1517-1519): `prev === 0 ? 0 : ((cur - prev) / prev) * 100`,
applied identically to revenue, expenses, and net income. -/
def plChange (prev cur : Option ℚ) : Option ℚ :=
  if prev = some 0 then some 0
  else omul (odiv (osub cur prev) prev) (some 100)

/-- `calculatePercentChange` (expenses.js 1018-1024). -/
def calculatePercentChange (oldValue newValue : ℚ) : ℚ :=
  if oldValue = 0 then (if newValue > 0 then 100 else 0)
  else (newValue - oldValue) / oldValue * 100

/-! ## ROI analysis (`updateROIAnalysis`, expenses.js 2098-2191) -/

/-- One ROI table row: net profit, rental, ROI percentage, and the
performance tier string. -/
structure RoiRow where
  netProfit : Option ℚ
  rental : Option ℚ
  roi : Option ℚ
  performance : String
deriving DecidableEq

/-- The tier assignment shared by the per-unit rows and the footer:
`>= 50` Excellent, `>= 20` Good, `>= 5` Average, otherwise Poor
(`NaN` falls through every comparison to Poor). -/
def roiTier (roi : Option ℚ) : String :=
  if oge roi 50 then "Excellent"
  else if oge roi 20 then "Good"
  else if oge roi 5 then "Average"
  else "Poor"

/-- Sum of the ten non-sales, non-rental categories of one record, in
source order. -/
def roiOtherExpenses (r : ExpenseRecord) : Option ℚ :=
  oadd (oadd (oadd (oadd (oadd (oadd (oadd (oadd (oadd
    (parseField r.electricity) (parseField r.water)) (parseField r.sewage))
    (parseField r.internet)) (parseField r.cleaner)) (parseField r.laundry))
    (parseField r.supplies)) (parseField r.repair)) (parseField r.replace))
    (parseField r.other)

/-- One unit's ROI row: `netProfit = sales - rental - otherExpenses`,
`roi = rental > 0 ? netProfit / rental * 100 : 0`, tier from
`roiTier`. -/
def roiRow (r : ExpenseRecord) : RoiRow :=
  let sales := parseField r.sales
  let rental := parseField r.rental
  let netProfit := osub (osub sales rental) (roiOtherExpenses r)
  let roi := if ogt0 rental then omul (odiv netProfit rental) (some 100) else some 0
  ⟨netProfit, rental, roi, roiTier roi⟩

/-- The aggregate footer row: the `forEach` accumulates
`totalNetProfit += netProfit` and `totalRental += rental` per unit, and
the total ROI is recomputed from those sums with the same guard and
tier rule. -/
def roiTotals (units : List UnitInfo) (expenses : List (ℕ × ExpenseRecord))
    (unitId : Option ℕ) : Option ℚ × Option ℚ × Option ℚ × String :=
  let filteredUnits := filterUnitsBy units unitId
  let totalNetProfit := filteredUnits.foldl
    (fun acc u => oadd acc (roiRow (lookupExpense expenses u.id)).netProfit) (some 0)
  let totalRental := filteredUnits.foldl
    (fun acc u => oadd acc (roiRow (lookupExpense expenses u.id)).rental) (some 0)
  let totalRoi :=
    if ogt0 totalRental then omul (odiv totalNetProfit totalRental) (some 100)
    else some 0
  (totalNetProfit, totalRental, totalRoi, roiTier totalRoi)

/-! ## `calculateNetEarn` (expenses.js 343-372) -/

/-- The `getValue` helper of `calculateNetEarn`: falsy values are `0`;
otherwise parse with every comma stripped, `NaN` defaulting to `0`. -/
def getValue (v : Option String) : ℚ :=
  if jsTruthy v then (jsParseFloat (stripCommas (v.getD ""))).getD 0 else 0

/-- `calculateNetEarn(expense)`: sales minus the eleven non-sales
categories, subtracted in source order, formatted with `toFixed(2)`. -/
def calculateNetEarn (r : ExpenseRecord) : String :=
  toFixed2 (getValue r.sales - getValue r.rental - getValue r.electricity -
    getValue r.water - getValue r.sewage - getValue r.internet -
    getValue r.cleaner - getValue r.laundry - getValue r.supplies -
    getValue r.repair - getValue r.replace - getValue r.other)

/-! ## Spec-side definitions used for refinement comparisons -/

/-- Modelled from the claim wording: plain numeric resolution of a
cell value, `missing/unparseable treated as 0`, with no truthiness
guard. -/
def specParse : Option String → ℚ
  | none => 0
  | some s => (jsParseFloat s).getD 0

/-- Modelled from the claim wording for `categoryTotals`: the plain
per-category sum over the filtered units. -/
def specCatSum (units : List UnitInfo) (expenses : List (ℕ × ExpenseRecord))
    (unitId : Option ℕ) (c : Category) : ℚ :=
  (filterUnitsBy units unitId).foldl
    (fun acc u => acc + specParse (c.getField (lookupExpense expenses u.id))) 0

/-- Modelled from the claim wording: the surviving categories, i.e.
those with a strictly positive sum (the amended claim; the original
claim said the zero-amount ones are dropped). -/
def specSurvivors (units : List UnitInfo) (expenses : List (ℕ × ExpenseRecord))
    (unitId : Option ℕ) : List Category :=
  categoryOrder.filter (fun c => 0 < specCatSum units expenses unitId c)

/-- Modelled from the claim wording: the sum of the surviving
categories, the base of the percentage computation. -/
def specTotal (units : List UnitInfo) (expenses : List (ℕ × ExpenseRecord))
    (unitId : Option ℕ) : ℚ :=
  ((specSurvivors units expenses unitId).map (specCatSum units expenses unitId)).sum

/-- Modelled from the claim wording: each surviving category with its
amount and its whole-percent share of the surviving total. -/
def specEntries (units : List UnitInfo) (expenses : List (ℕ × ExpenseRecord))
    (unitId : Option ℕ) : List CatEntry :=
  (specSurvivors units expenses unitId).map
    (fun c => ⟨c.displayName, specCatSum units expenses unitId c,
      jsRound (specCatSum units expenses unitId c / specTotal units expenses unitId * 100)⟩)

/-! ## Theorems for the claims -/

/-- C1 (counterexample): evaluating the implicit formula body `"5--3"`
returns `"2.00"`, not `"8.00"` as the claim states: the identical-run
collapse turns `--` into `-` before the sign-combination rewrites run,
so the `-- → +` rewrite never fires. -/
theorem C1_counterexample :
    calculateFormula "5--3" = Except.ok "2.00" ∧
    calculateFormula "5--3" ≠ Except.ok "8.00" := by
  have h : calculateFormula "5--3" = Except.ok "2.00" := by with_unfolding_all rfl
  refine ⟨h, ?_⟩
  rw [h]
  intro hc
  exact absurd (Except.ok.inj hc) (by decide)

/-- C1 (amended): for the input text `"5--3"` (an implicit formula
body), evaluation applies the normalization rules — collapsing the run
of identical operators first turns `"5--3"` into `"5-3"`, after which
the sign-combination rewrites find nothing — and returns the string
`"2.00"`, which the blur handler displays and stores. -/
theorem C1_amended :
    normalizeExpr "5--3" = "5-3" ∧
    calculateFormula "5--3" = Except.ok "2.00" ∧
    blurHandler none ⟨none, none⟩ "5--3" =
      ⟨"2.00", none, ⟨some "2.00", none⟩, false⟩ :=
  ⟨by with_unfolding_all rfl, by with_unfolding_all rfl, by with_unfolding_all rfl⟩

/-- C2: for the input `"1/0"` the code does not fail: the evaluator
returns the string `"Infinity"` (`1/0` evaluates to `Infinity` and
`parseFloat(result).toFixed(2)` renders it), and the blur handler
displays it and stores it in the in-memory expense record — the
non-finite result is silently propagated to the caller, contradicting
the claim that it is treated as a failure. -/
theorem C2_nonfinite_propagated :
    calculateFormula "1/0" = Except.ok "Infinity" ∧
    blurHandler none ⟨none, none⟩ "1/0" =
      ⟨"Infinity", none, ⟨some "Infinity", none⟩, false⟩ :=
  ⟨by with_unfolding_all rfl, by with_unfolding_all rfl⟩

/-- C3 (counterexample): with an empty comparison month and a current
month of total sales 50, `updatePnLStatement` reports a revenue change
of 0, while `calculatePercentChange` would report 100 — the summary
does not use `percentChange`'s zero-guard. -/
theorem C3_counterexample :
    plTotals [⟨1, "A"⟩] [] none = (some 0, some 0, some 0) ∧
    (plTotals [⟨1, "A"⟩] [(1, { sales := some "50" })] none).1 = some 50 ∧
    plChange (some 0) (some 50) = some 0 ∧
    calculatePercentChange 0 50 = 100 ∧
    plChange (some 0) (some 50) ≠ some (calculatePercentChange 0 50) := by
  have h1 : plChange (some 0) (some 50) = some 0 := by with_unfolding_all rfl
  have h2 : calculatePercentChange 0 50 = 100 := by norm_num [calculatePercentChange]
  refine ⟨by with_unfolding_all rfl, by with_unfolding_all rfl, h1, h2, ?_⟩
  rw [h1, h2]
  intro hc
  exact absurd (Option.some.inj hc) (by norm_num)

/-- C3 (amended): the profit-and-loss summary computes each percent
change inline as `prev === 0 ? 0 : (cur - prev) / prev * 100` — not via
`calculatePercentChange`; when the previous total is 0 the reported
change is 0 regardless of the current total, and the inline rule agrees
with `calculatePercentChange` exactly when the previous total is
nonzero or the current total is not positive. -/
theorem C3_amended : ∀ p c : ℚ,
    plChange (some p) (some c) = some (if p = 0 then 0 else (c - p) / p * 100) ∧
    (plChange (some p) (some c) = some (calculatePercentChange p c) ↔ ¬(p = 0 ∧ 0 < c)) := by
  intro p c
  by_cases hp : p = 0
  · subst hp
    refine ⟨by simp [plChange], ?_⟩
    by_cases hc : 0 < c
    · simp only [plChange, calculatePercentChange, if_pos rfl, if_pos hc, hc]
      norm_num
    · simp only [plChange, calculatePercentChange, if_pos rfl, if_neg hc, hc]
      norm_num
  · refine ⟨?_, ?_⟩
    · simp [plChange, hp, osub, odiv, omul]
    · simp [plChange, calculatePercentChange, hp, osub, odiv, omul]

/-- C3 (amended, witness): the amended rule evaluated at the
counterexample pair (previous 0, current 50). -/
theorem C3_amended_witness :
    plChange (some 0) (some 50) = some (if (0:ℚ) = 0 then 0 else ((50:ℚ) - 0) / 0 * 100) :=
  (C3_amended 0 50).1

/-- C4 (counterexample): committing the failing text `"=5a"` over a
cell that held the formula `"=1+1"` raises the transient error flag
and leaves the in-memory record untouched, but the element's stored
formula text is overwritten with the failing text before evaluation —
the cell's entire prior state is not left untouched. -/
theorem C4_counterexample :
    (blurHandler (some "=1+1") ⟨some "2.00", some "=1+1"⟩ "=5a").errorFlagged = true ∧
    (blurHandler (some "=1+1") ⟨some "2.00", some "=1+1"⟩ "=5a").mem =
      ⟨some "2.00", some "=1+1"⟩ ∧
    (blurHandler (some "=1+1") ⟨some "2.00", some "=1+1"⟩ "=5a").datasetFormula ≠
      some "=1+1" := by
  have h : blurHandler (some "=1+1") ⟨some "2.00", some "=1+1"⟩ "=5a" =
      ⟨"=5a", some "=5a", ⟨some "2.00", some "=1+1"⟩, true⟩ := by with_unfolding_all rfl
  refine ⟨by rw [h], by rw [h], by rw [h]; intro hc; exact absurd (Option.some.inj hc) (by decide)⟩

/-- C4 (amended): whenever a committed text fails evaluation the
transient, auto-clearing, non-fatal error indicator is raised, the
in-memory expense record is left untouched and the displayed text
stays the committed text; the element's stored formula text, however,
is not preserved — the `=` branch overwrites it with the failing text
and the implicit branch deletes it, both before evaluating. -/
theorem C4_amended : ∀ (pf : Option String) (mem : MemCell) (t : String),
    (blurHandler pf mem t).errorFlagged = true →
    (blurHandler pf mem t).mem = mem ∧ (blurHandler pf mem t).displayed = t := by
  intro pf mem t
  by_cases hA : t.trim ≠ "" ∧ t.trim.startsWith "="
  · rcases hE : calculateFormula (stripCommas (t.trim.drop 1)) with _ | res <;>
      simp [blurHandler, hA, hE]
  · by_cases hB : t.trim ≠ "" ∧ containsOperator t.trim
    · have hSW : t.trim.startsWith "=" = false := by
        rcases Bool.eq_false_or_eq_true (t.trim.startsWith "=") with h | h
        · exact absurd ⟨hB.1, h⟩ hA
        · exact h
      rcases hE : calculateFormula (stripCommas t.trim) with _ | res <;>
        simp [blurHandler, hA, hB, hSW, hE]
    · simp [blurHandler, hA, hB]

/-- C4 (amended, witness): the amended guarantee at the concrete
failing commit `"=(1"` (unmatched parenthesis). -/
theorem C4_amended_witness :
    (blurHandler none ⟨some "7.00", none⟩ "=(1").mem = ⟨some "7.00", none⟩ ∧
    (blurHandler none ⟨some "7.00", none⟩ "=(1").displayed = "=(1" :=
  C4_amended none ⟨some "7.00", none⟩ "=(1" (by with_unfolding_all rfl)

/-- C8: `calculatePercentChange` returns
`(current - previous) / previous * 100` with the zero-guard returning
100 for a positive current and 0 otherwise when the previous value is
0; in particular the three pinned examples hold. -/
theorem C8_percentChange :
    (∀ p c : ℚ, calculatePercentChange p c =
      if p = 0 then (if 0 < c then 100 else 0) else (c - p) / p * 100) ∧
    calculatePercentChange 0 50 = 100 ∧
    calculatePercentChange 0 0 = 0 ∧
    calculatePercentChange 100 50 = -50 := by
  refine ⟨fun p c => rfl, by norm_num [calculatePercentChange],
    by norm_num [calculatePercentChange], by norm_num [calculatePercentChange]⟩

/-- C9: `calculateNetEarn` is sales minus the sum of the eleven
non-sales categories, each value resolved by stripping commas and
parsing with missing/empty/unparseable values counting as 0, formatted
to exactly two decimal places; in particular the pinned example yields
`"60.00"`. -/
theorem C9_netEarnings :
    (∀ r : ExpenseRecord, calculateNetEarn r =
      toFixed2 (getValue r.sales -
        (getValue r.rental + getValue r.electricity + getValue r.water +
         getValue r.sewage + getValue r.internet + getValue r.cleaner +
         getValue r.laundry + getValue r.supplies + getValue r.repair +
         getValue r.replace + getValue r.other))) ∧
    getValue none = 0 ∧
    (∀ s : String, getValue (some s) =
      if s = "" then 0 else (jsParseFloat (stripCommas s)).getD 0) ∧
    calculateNetEarn { sales := some "100", rental := some "30", electricity := some "10" }
      = "60.00" := by
  refine ⟨fun r => ?_, rfl, fun s => ?_, by with_unfolding_all rfl⟩
  · unfold calculateNetEarn
    congr 1
    ring
  · by_cases h : s = "" <;> simp [getValue, jsTruthy, h]

/-- Characterization of the tier thresholds: each tier string is
returned exactly for its band of the guard comparisons. -/
theorem roiTier_spec (v : Option ℚ) :
    (roiTier v = "Excellent" ↔ oge v 50 = true) ∧
    (roiTier v = "Good" ↔ (oge v 50 = false ∧ oge v 20 = true)) ∧
    (roiTier v = "Average" ↔
      (oge v 50 = false ∧ oge v 20 = false ∧ oge v 5 = true)) ∧
    (roiTier v = "Poor" ↔
      (oge v 50 = false ∧ oge v 20 = false ∧ oge v 5 = false)) := by
  cases h50 : oge v 50 <;> cases h20 : oge v 20 <;> cases h5 : oge v 5 <;>
    simp [roiTier, h50, h20, h5]

/-- C6: each ROI row computes `netProfit = sales − rental − (sum of the
remaining non-sales, non-rental categories)`,
`roiPercent = rental > 0 ? netProfit / rental × 100 : 0`, and the tier
by the thresholds `≥ 50` Excellent, `≥ 20` Good, `≥ 5` Average, else
Poor; the aggregate row is recomputed from the summed netProfit and
summed rental (at the concrete two-unit example the sums give −25%,
which differs from the average 50/3 of the per-unit percentages 100 and
−200/3); the spec example (sales 1000, rental 500, other 100) yields
netProfit 400, roiPercent 80, tier Excellent. -/
theorem C6_roi :
    (∀ r : ExpenseRecord,
      (roiRow r).netProfit =
        osub (osub (parseField r.sales) (parseField r.rental)) (roiOtherExpenses r) ∧
      (roiRow r).roi =
        (if ogt0 (parseField r.rental) then
          omul (odiv ((roiRow r).netProfit) (parseField r.rental)) (some 100)
        else some 0) ∧
      (roiRow r).performance = roiTier ((roiRow r).roi) ∧
      ((roiRow r).performance = "Excellent" ↔ oge ((roiRow r).roi) 50 = true) ∧
      ((roiRow r).performance = "Good" ↔
        (oge ((roiRow r).roi) 50 = false ∧ oge ((roiRow r).roi) 20 = true)) ∧
      ((roiRow r).performance = "Average" ↔
        (oge ((roiRow r).roi) 50 = false ∧ oge ((roiRow r).roi) 20 = false ∧
          oge ((roiRow r).roi) 5 = true)) ∧
      ((roiRow r).performance = "Poor" ↔
        (oge ((roiRow r).roi) 50 = false ∧ oge ((roiRow r).roi) 20 = false ∧
          oge ((roiRow r).roi) 5 = false))) ∧
    (∀ (units : List UnitInfo) (expenses : List (ℕ × ExpenseRecord)) (unitId : Option ℕ),
      (roiTotals units expenses unitId).1 =
        (filterUnitsBy units unitId).foldl
          (fun acc u => oadd acc (roiRow (lookupExpense expenses u.id)).netProfit) (some 0) ∧
      (roiTotals units expenses unitId).2.1 =
        (filterUnitsBy units unitId).foldl
          (fun acc u => oadd acc (roiRow (lookupExpense expenses u.id)).rental) (some 0) ∧
      (roiTotals units expenses unitId).2.2.1 =
        (if ogt0 ((roiTotals units expenses unitId).2.1) then
          omul (odiv ((roiTotals units expenses unitId).1)
            ((roiTotals units expenses unitId).2.1)) (some 100)
        else some 0) ∧
      (roiTotals units expenses unitId).2.2.2 =
        roiTier ((roiTotals units expenses unitId).2.2.1)) ∧
    roiRow { sales := some "1000", rental := some "500", other := some "100" } =
      ⟨some 400, some 500, some 80, "Excellent"⟩ ∧
    roiTotals [⟨1, "A"⟩, ⟨2, "B"⟩]
      [(1, { sales := some "200", rental := some "100" }),
       (2, { sales := some "100", rental := some "300" })] none =
      (some (-100), some 400, some (-25), "Poor") ∧
    (roiRow { sales := some "200", rental := some "100" }).roi = some 100 ∧
    (roiRow { sales := some "100", rental := some "300" }).roi = some (-200 / 3) ∧
    (some (-25) : Option ℚ) ≠ some ((100 + -200 / 3) / 2) := by
  refine ⟨fun r => ⟨rfl, rfl, rfl, (roiTier_spec ((roiRow r).roi)).1,
      (roiTier_spec ((roiRow r).roi)).2.1, (roiTier_spec ((roiRow r).roi)).2.2.1,
      (roiTier_spec ((roiRow r).roi)).2.2.2⟩,
    fun u e i => ⟨rfl, rfl, rfl, rfl⟩,
    by with_unfolding_all rfl, by with_unfolding_all rfl,
    by with_unfolding_all rfl, by with_unfolding_all rfl, ?_⟩
  intro hc
  exact absurd (Option.some.inj hc) (by norm_num)

/-- A decimal digit is not JavaScript whitespace. -/
theorem digit_not_ws (c : Char) (h : c.isDigit = true) : isJsWhitespace c = false := by
  unfold isJsWhitespace
  rcases Bool.eq_false_or_eq_true c.isWhitespace with hw | hw
  · exfalso
    simp only [Char.isWhitespace, Bool.or_eq_true, decide_eq_true_eq] at hw
    rcases hw with ((h1 | h1) | h1) | h1 <;> (subst h1; exact Bool.false_ne_true h)
  · exact hw

/-- A decimal digit is not the minus sign. -/
theorem digit_ne_minus (c : Char) (h : c.isDigit = true) : c ≠ '-' := by
  intro hc
  rw [hc] at h
  exact Bool.false_ne_true h

/-- A decimal digit is not the plus sign. -/
theorem digit_ne_plus (c : Char) (h : c.isDigit = true) : c ≠ '+' := by
  intro hc
  rw [hc] at h
  exact Bool.false_ne_true h

/-- Taking digits from `ds ++ x :: r` where every character of `ds` is
a digit and `x` is not yields exactly `ds`. -/
theorem takeWhile_digits_append (ds : List Char) (x : Char) (r : List Char)
    (h2 : ∀ c ∈ ds, c.isDigit = true) (hx : x.isDigit = false) :
    (ds ++ x :: r).takeWhile Char.isDigit = ds := by
  induction ds with
  | nil => simp [List.takeWhile_cons, hx]
  | cons d tl ih =>
    have hd : d.isDigit = true := h2 d (by simp)
    simp only [List.cons_append, List.takeWhile_cons, hd, if_true]
    rw [ih (fun c hc => h2 c (by simp [hc]))]

/-- C10: the aggregation views (`processExpenseData`,
`calculateTopExpenseUnits`, the P&L totals) parse stored cell values
with a plain numeric-prefix parse and do not strip thousands-separator
commas, so a value of the form `digits , ...` counts only the digits
before the first comma — `"1,234"` counts as 1 in the category
breakdown, the top-units ranking and the P&L totals — while
`calculateNetEarn` strips commas first and sees 1234. -/
theorem C10_comma_divergence :
    (∀ ds rest : List Char, ds ≠ [] → (∀ c ∈ ds, c.isDigit = true) →
      jsParseFloat ⟨ds ++ ',' :: rest⟩ = some (digitsVal ds)) ∧
    jsParseFloat "1,234" = some 1 ∧
    jsParseFloat (stripCommas "1,234") = some 1234 ∧
    getValue (some "1,234") = 1234 ∧
    (processExpenseData [⟨1, "A"⟩] [(1, { rental := some "1,234" })] none).categories =
      [⟨"Rental", 1, 100⟩] ∧
    calculateTopExpenseUnits [⟨1, "A"⟩] [(1, { rental := some "1,234" })] =
      [⟨1, "A", some 1⟩] ∧
    plTotals [⟨1, "A"⟩] [(1, { rental := some "1,234" })] none =
      (some 0, some 1, some (-1)) ∧
    calculateNetEarn { rental := some "1,234" } = "-1234.00" := by
  refine ⟨?_, by with_unfolding_all rfl, by with_unfolding_all rfl,
    by with_unfolding_all rfl, by with_unfolding_all rfl, by with_unfolding_all rfl,
    by with_unfolding_all rfl, by with_unfolding_all rfl⟩
  intro ds rest h1 h2
  obtain ⟨d, ds2, rfl⟩ : ∃ d ds2, ds = d :: ds2 := by
    cases ds with
    | nil => exact absurd rfl h1
    | cons d tl => exact ⟨d, tl, rfl⟩
  have hd : d.isDigit = true := h2 d (by simp)
  have hdw : isJsWhitespace d = false := digit_not_ws d hd
  have hdm : d ≠ '-' := digit_ne_minus d hd
  have hdp : d ≠ '+' := digit_ne_plus d hd
  have hdata : (⟨(d :: ds2) ++ ',' :: rest⟩ : String).data = (d :: ds2) ++ ',' :: rest := rfl
  have hTW : ((d :: ds2) ++ ',' :: rest).takeWhile Char.isDigit = d :: ds2 :=
    takeWhile_digits_append (d :: ds2) ',' rest h2 rfl
  simp only [jsParseFloat, hdata, List.cons_append, List.dropWhile_cons, hdw,
    Bool.false_eq_true, if_false, List.headI, if_neg hdm, if_neg hdp]
  simp only [parseFloatDigits]
  rw [show d :: (ds2 ++ ',' :: rest) = (d :: ds2) ++ ',' :: rest from rfl, hTW,
    List.drop_left]
  simp only [List.headI, if_neg (show ¬(',' = '.') from by decide)]
  rw [if_neg (by simp)]
  norm_num [fracVal, digitsVal]

/-- The top-units comparator is transitive. -/
theorem topCmpLe_trans (a b c : TopUnitEntry)
    (hab : topCmpLe a b = true) (hbc : topCmpLe b c = true) : topCmpLe a c = true := by
  simp only [topCmpLe, decide_eq_true_eq] at hab hbc ⊢
  exact le_trans hbc hab

/-- The top-units comparator is total. -/
theorem topCmpLe_total (a b : TopUnitEntry) : (topCmpLe a b || topCmpLe b a) = true := by
  simp only [topCmpLe, Bool.or_eq_true, decide_eq_true_eq]
  exact le_total (b.total_expense.getD 0) (a.total_expense.getD 0)

/-- C7: `calculateTopExpenseUnits` returns at most 10 entries; every
returned entry has a strictly positive total (so never a total of
exactly 0) and is one of the input units carrying that unit's total of
the eleven non-sales categories; the list is sorted descending by
total; and ties are broken deterministically by input position — any
two entries of the filtered list in comparator order (in particular
any tied pair) reach the sorted list in their input order (stability
of the sort). -/
theorem C7_topUnits : ∀ (units : List UnitInfo) (expenses : List (ℕ × ExpenseRecord)),
    (calculateTopExpenseUnits units expenses).length ≤ 10 ∧
    (∀ e ∈ calculateTopExpenseUnits units expenses,
      (∃ q, e.total_expense = some q ∧ 0 < q) ∧ e.total_expense ≠ some 0 ∧
      ∃ u ∈ units, e.id = u.id ∧ e.unit_number = u.unit_number ∧
        e.total_expense = unitTotal (lookupExpense expenses u.id)) ∧
    (calculateTopExpenseUnits units expenses).Pairwise
      (fun a b => b.total_expense.getD 0 ≤ a.total_expense.getD 0) ∧
    (∀ a b : TopUnitEntry, topCmpLe a b = true →
      [a, b].Sublist (topUnitsFiltered units expenses) →
      [a, b].Sublist (topUnitsSorted units expenses)) := by
  intro units expenses
  refine ⟨?_, ?_, ?_, ?_⟩
  · rw [calculateTopExpenseUnits, List.length_take]
    exact min_le_left 10 _
  · intro e he
    have hsorted : e ∈ topUnitsSorted units expenses :=
      List.take_subset 10 _ he
    have hfil : e ∈ topUnitsFiltered units expenses :=
      (List.mergeSort_perm (topUnitsFiltered units expenses) topCmpLe).mem_iff.mp hsorted
    rw [topUnitsFiltered, List.mem_filter] at hfil
    obtain ⟨hmem, hpos⟩ := hfil
    have hq : ∃ q, e.total_expense = some q ∧ 0 < q := by
      rcases hte : e.total_expense with _ | q
      · rw [hte] at hpos
        simp [ogt0] at hpos
      · rw [hte] at hpos
        simp only [ogt0, decide_eq_true_eq] at hpos
        exact ⟨q, rfl, hpos⟩
    obtain ⟨q, hq1, hq2⟩ := hq
    refine ⟨⟨q, hq1, hq2⟩, ?_, ?_⟩
    · rw [hq1]
      intro hz
      exact absurd (Option.some.inj hz) (ne_of_gt hq2)
    · rw [List.mem_map] at hmem
      obtain ⟨u, hu, hfu⟩ := hmem
      exact ⟨u, hu, by rw [← hfu], by rw [← hfu], by rw [← hfu]⟩
  · have hPW := List.sorted_mergeSort topCmpLe_trans topCmpLe_total
      (topUnitsFiltered units expenses)
    have hPW2 : (topUnitsSorted units expenses).Pairwise
        (fun a b => b.total_expense.getD 0 ≤ a.total_expense.getD 0) := by
      refine hPW.imp ?_
      intro a b h
      simpa [topCmpLe] using h
    exact hPW2.sublist (List.take_sublist 10 _)
  · intro a b hab hsub
    exact List.sublist_mergeSort topCmpLe_trans topCmpLe_total
      (by simp [hab]) hsub

/-- C7 (witness): the stability guarantee applied to a concrete tied
pair — two units with equal totals reach the sorted list in input
order. -/
theorem C7_topUnits_witness :
    [(⟨1, "A", some 5⟩ : TopUnitEntry), ⟨2, "B", some 5⟩].Sublist
      (topUnitsSorted [⟨1, "A"⟩, ⟨2, "B"⟩]
        [(1, { rental := some "5" }), (2, { rental := some "5" })]) := by
  refine (C7_topUnits [⟨1, "A"⟩, ⟨2, "B"⟩]
    [(1, { rental := some "5" }), (2, { rental := some "5" })]).2.2.2
    ⟨1, "A", some 5⟩ ⟨2, "B", some 5⟩ (by with_unfolding_all rfl) ?_
  have hfil : topUnitsFiltered [⟨1, "A"⟩, ⟨2, "B"⟩]
      [(1, { rental := some "5" }), (2, { rental := some "5" })] =
      [⟨1, "A", some 5⟩, ⟨2, "B", some 5⟩] := by with_unfolding_all rfl
  rw [hfil]

/-- The truthiness guard in front of each category addition is
redundant for the resulting sum: a falsy field contributes 0 either
way. -/
theorem parseGuarded_eq_specParse (v : Option String) : parseGuarded v = specParse v := by
  rcases v with _ | s
  · rfl
  · by_cases hs : s = ""
    · subst hs
      simp [parseGuarded, specParse, jsTruthy, show jsParseFloat "" = none from rfl]
    · simp [parseGuarded, specParse, jsTruthy, hs]

/-- The source's guarded per-category sum equals the plain spec-side
per-category sum. -/
theorem catAmount_eq_specCatSum (units : List UnitInfo)
    (expenses : List (ℕ × ExpenseRecord)) (unitId : Option ℕ) (c : Category) :
    catAmount units expenses unitId c = specCatSum units expenses unitId c := by
  unfold catAmount specCatSum
  exact List.foldl_ext _ _ 0 (fun acc u _ => by rw [parseGuarded_eq_specParse])

/-- The category comparator is transitive. -/
theorem catCmpLe_trans (a b c : CatEntry)
    (hab : catCmpLe a b = true) (hbc : catCmpLe b c = true) : catCmpLe a c = true := by
  simp only [catCmpLe, decide_eq_true_eq] at hab hbc ⊢
  exact le_trans hbc hab

/-- The category comparator is total. -/
theorem catCmpLe_total (a b : CatEntry) : (catCmpLe a b || catCmpLe b a) = true := by
  simp only [catCmpLe, Bool.or_eq_true, decide_eq_true_eq]
  exact le_total b.amount a.amount

/-- The filtered category list of the source equals the spec-side
survivor list paired with its sums. -/
theorem nonZeroCategories_eq_spec (units : List UnitInfo)
    (expenses : List (ℕ × ExpenseRecord)) (unitId : Option ℕ) :
    nonZeroCategories units expenses unitId =
      (specSurvivors units expenses unitId).map
        (fun c => (c, specCatSum units expenses unitId c)) := by
  unfold nonZeroCategories specSurvivors
  simp only [catAmount_eq_specCatSum]
  rw [List.filter_map]
  rfl

/-- The source's running total over the filtered categories equals the
spec-side sum of the surviving categories. -/
theorem nonZeroTotal_eq_specTotal (units : List UnitInfo)
    (expenses : List (ℕ × ExpenseRecord)) (unitId : Option ℕ) :
    nonZeroTotal units expenses unitId = specTotal units expenses unitId := by
  unfold nonZeroTotal specTotal
  rw [nonZeroCategories_eq_spec, List.foldl_map, List.sum_eq_foldl, List.foldl_map]

/-- The percentage-attached category list of the source equals the
spec-side entry list. -/
theorem categoriesWithPct_eq_specEntries (units : List UnitInfo)
    (expenses : List (ℕ × ExpenseRecord)) (unitId : Option ℕ) :
    categoriesWithPct units expenses unitId = specEntries units expenses unitId := by
  unfold categoriesWithPct specEntries
  rw [nonZeroCategories_eq_spec, nonZeroTotal_eq_specTotal, List.map_map]
  rfl

/-- C5 (counterexample): with one unit holding `rental = "-5"` and
`electricity = "10"`, the Rental category has a nonzero sum (−5) yet
is dropped from the breakdown — the code keeps only the categories
with a strictly positive sum, not merely the nonzero ones, and the
surviving percentage base (10) therefore differs from the claim's base
over nonzero categories (5). -/
theorem C5_counterexample :
    specCatSum [⟨1, "A"⟩] [(1, { rental := some "-5", electricity := some "10" })] none
      Category.rental = -5 ∧
    ((-5 : ℚ)) ≠ 0 ∧
    (processExpenseData [⟨1, "A"⟩]
      [(1, { rental := some "-5", electricity := some "10" })] none).categories =
      [⟨"Electricity", 10, 100⟩] ∧
    (processExpenseData [⟨1, "A"⟩]
      [(1, { rental := some "-5", electricity := some "10" })] none).total = 10 :=
  ⟨by with_unfolding_all rfl, by norm_num, by with_unfolding_all rfl,
    by with_unfolding_all rfl⟩

/-- C5 (amended): for every record collection and unit filter,
`processExpenseData` sums each non-sales category over the filtered
units (the truthiness guard being redundant), keeps exactly the
categories whose sum is strictly positive — dropping zero-amount and
negative-amount categories alike — gives each survivor the percentage
`Math.round(amount / (sum of surviving categories) * 100)`, and
returns them sorted descending by amount with ties kept in category
order (stable sort); when every category sum is nonpositive (in
particular when all are zero) the list is empty and the top category
is the sentinel `{name: 'None', percentage: 0}`. -/
theorem C5_amended : ∀ (units : List UnitInfo) (expenses : List (ℕ × ExpenseRecord))
    (unitId : Option ℕ),
    (∀ c : Category, catAmount units expenses unitId c = specCatSum units expenses unitId c) ∧
    (processExpenseData units expenses unitId).categories.Perm
      (specEntries units expenses unitId) ∧
    (∀ e ∈ (processExpenseData units expenses unitId).categories, 0 < e.amount) ∧
    (processExpenseData units expenses unitId).total = specTotal units expenses unitId ∧
    (processExpenseData units expenses unitId).categories.Pairwise
      (fun a b => b.amount ≤ a.amount) ∧
    (∀ a b : CatEntry, catCmpLe a b = true →
      [a, b].Sublist (categoriesWithPct units expenses unitId) →
      [a, b].Sublist (sortedCategories units expenses unitId)) ∧
    ((∀ c : Category, specCatSum units expenses unitId c ≤ 0) →
      (processExpenseData units expenses unitId).categories = [] ∧
      (processExpenseData units expenses unitId).topExpenseName = "None" ∧
      (processExpenseData units expenses unitId).topExpensePercentage = 0) := by
  intro units expenses unitId
  have hcats : (processExpenseData units expenses unitId).categories =
      sortedCategories units expenses unitId := rfl
  have hperm : (sortedCategories units expenses unitId).Perm
      (categoriesWithPct units expenses unitId) :=
    List.mergeSort_perm _ _
  refine ⟨fun c => catAmount_eq_specCatSum units expenses unitId c, ?_, ?_, ?_, ?_, ?_, ?_⟩
  · rw [hcats, ← categoriesWithPct_eq_specEntries]
    exact hperm
  · intro e he
    rw [hcats] at he
    have he2 : e ∈ categoriesWithPct units expenses unitId := hperm.mem_iff.mp he
    rw [categoriesWithPct_eq_specEntries] at he2
    unfold specEntries at he2
    rw [List.mem_map] at he2
    obtain ⟨c, hc, hce⟩ := he2
    unfold specSurvivors at hc
    rw [List.mem_filter] at hc
    have hpos := hc.2
    rw [decide_eq_true_eq] at hpos
    rw [← hce]
    exact hpos
  · exact nonZeroTotal_eq_specTotal units expenses unitId
  · rw [hcats]
    have hPW := List.sorted_mergeSort catCmpLe_trans catCmpLe_total
      (categoriesWithPct units expenses unitId)
    exact hPW.imp (fun h => by simpa [catCmpLe] using h)
  · intro a b hab hsub
    exact List.sublist_mergeSort catCmpLe_trans catCmpLe_total (by simp [hab]) hsub
  · intro hall
    have hsurv : specSurvivors units expenses unitId = [] := by
      unfold specSurvivors
      rw [List.filter_eq_nil_iff]
      intro c hc
      simp only [decide_eq_true_eq]
      exact fun hlt => absurd (hall c) (not_le.mpr hlt)
    have hwp : categoriesWithPct units expenses unitId = [] := by
      rw [categoriesWithPct_eq_specEntries]
      unfold specEntries
      rw [hsurv]
      rfl
    have hs : sortedCategories units expenses unitId = [] := by
      unfold sortedCategories
      rw [hwp]
      exact List.mergeSort_nil
    exact ⟨by rw [hcats, hs], by simp [processExpenseData, hs],
      by simp [processExpenseData, hs]⟩

/-- C5 (amended, witness): the sentinel clause applied to the empty
collection — no units, every category sum 0, empty list, sentinel top
category. -/
theorem C5_amended_witness :
    (processExpenseData [] [] none).categories = [] ∧
    (processExpenseData [] [] none).topExpenseName = "None" ∧
    (processExpenseData [] [] none).topExpensePercentage = 0 :=
  (C5_amended [] [] none).2.2.2.2.2.2 (fun _ => le_of_eq (by with_unfolding_all rfl))

/-- C10 (witness): the digits-before-comma rule applied at the
concrete value `"1,234"`. -/
theorem C10_comma_divergence_witness :
    jsParseFloat ⟨['1'] ++ ',' :: ['2', '3', '4']⟩ = some (digitsVal ['1']) :=
  C10_comma_divergence.1 ['1'] ['2', '3', '4'] (by simp) (by decide)
